import Mathlib

/-!
Shallow embedding of the chart-computation engine of
`astrological-calculations/astrological_analyzer.py`.

Modelling conventions:
* Python floats are modelled as rationals (`ℚ`); every arithmetic step of the
  source is reproduced exactly (the source's decimal literals are exact in `ℚ`).
* Python strings are modelled as `List Char`; `str.split(sep)` with a one-char
  separator, `str.split(sep, 1)`, `str.strip()` and `int(...)` / `float(...)`
  parsing are modelled by the executable functions below.
* Python `%` on numbers with a positive right operand is `pymod`
  (`x - m*⌊x/m⌋`, the floored remainder, which is what Python computes).
* Python `int(x)` applied to a non-negative float is `⌊x⌋`; `pytrunc` keeps the
  toward-zero behaviour for generality.
* `dict` values are insertion-ordered association lists; an update of an
  existing key keeps its position, as in Python.
* Raising an exception is modelled with `Option`; a `try/except` block that
  returns a default becomes a `match` on the `Option`.
-/

/-- Python strings, modelled as their character lists. -/
abbrev Str := List Char

/-- Python `s.split(c)` for a single-character separator `c`:
`''.split(c) = ['']`, separators at the ends produce empty fields. -/
def splitOnChar (c : Char) : Str → List Str
  | [] => [[]]
  | x :: xs =>
    if x = c then [] :: splitOnChar c xs
    else
      match splitOnChar c xs with
      | [] => [[x]]
      | y :: ys => (x :: y) :: ys

/-- Python `s.split(c, 1)`: the part before the first `c`, and — when `c`
occurs at all — the untouched remainder after it. -/
def split1 (c : Char) : Str → Str × Option Str
  | [] => ([], none)
  | x :: xs =>
    if x = c then ([], some xs)
    else
      let r := split1 c xs
      (x :: r.1, r.2)

/-- ASCII whitespace recognised by the model of Python `str.strip()`. -/
def isSpaceChar (c : Char) : Bool :=
  c = ' ' || c = '\t' || c = '\n' || c = '\r'

/-- Model of Python `str.strip()` (ASCII whitespace only). -/
def pystrip (s : Str) : Str :=
  ((s.dropWhile isSpaceChar).reverse.dropWhile isSpaceChar).reverse

/-- Digit-string value; `none` when a non-digit occurs. The empty string maps
to `some 0`, callers reject emptiness themselves. -/
def natDigits (s : Str) : Option ℕ :=
  s.foldl
    (fun acc c =>
      match acc with
      | none => none
      | some n => if c.isDigit then some (n * 10 + (c.toNat - 48)) else none)
    (some 0)

/-- Model of Python `int(str)`: optional surrounding whitespace, optional
single sign, then one or more decimal digits. -/
def pyInt (s : Str) : Option ℤ :=
  let t := pystrip s
  match t with
  | '+' :: rest => if rest = [] then none else (natDigits rest).map Int.ofNat
  | '-' :: rest => if rest = [] then none else (natDigits rest).map (fun n => -(n : ℤ))
  | _ => if t = [] then none else (natDigits t).map Int.ofNat

/-- Model of Python `float(str)` restricted to plain decimal notation
(optional sign, digits, optional single point); exponent forms are not
modelled, no caller in the embedded code path reaches them. -/
def pyFloat (s : Str) : Option ℚ :=
  let t := pystrip s
  let core : Str → Option ℚ := fun u =>
    match splitOnChar '.' u with
    | [a] =>
      if a = [] then none else (natDigits a).map (fun n => (n : ℚ))
    | [a, b] =>
      if a = [] ∧ b = [] then none
      else
        match natDigits a, natDigits b with
        | some na, some nb => some ((na : ℚ) + (nb : ℚ) / 10 ^ b.length)
        | _, _ => none
    | _ => none
  match t with
  | '+' :: rest => core rest
  | '-' :: rest => (core rest).map (fun q => -q)
  | _ => core t

/-- Python `x % m`: the floored remainder `x - m * ⌊x / m⌋`. -/
def pymod (x m : ℚ) : ℚ := x - m * ⌊x / m⌋

/-- Python `int(x)` on a float: truncation toward zero. -/
def pytrunc (x : ℚ) : ℤ := if x < 0 then ⌈x⌉ else ⌊x⌋

/-- Planet record (`@dataclass Planet`, lines 51-58). -/
structure Planet where
  name : Str
  longitude : ℚ
  sign : Str
  house : ℕ
  keywords : List Str
deriving DecidableEq

/-- Aspect record (`@dataclass Aspect`, lines 60-68). -/
structure Aspect where
  planet1 : Str
  planet2 : Str
  angle : ℚ
  aspect_type : Str
  orb : ℚ
  keywords : List Str
deriving DecidableEq

/-- Python `dict` insertion: an existing key is updated in place, a new key is
appended at the end. -/
def dictInsert {α : Type} (k : Str) (v : α) : List (Str × α) → List (Str × α)
  | [] => [(k, v)]
  | e :: rest => if e.1 = k then (k, v) :: rest else e :: dictInsert k v rest

/-- Python `dict.get(k, dflt)` over the association-list model. -/
def dictGetD {α : Type} (d : List (Str × α)) (k : Str) (dflt : α) : α :=
  match d.find? (fun e => e.1 == k) with
  | some e => e.2
  | none => dflt

/-- One iteration of `_load_data_file`'s loop body (lines 115-119): strip the
line, and if it is nonempty and contains a colon, split once at the colon and
split the value on semicolons. -/
def parse_data_line (line : Str) : Option (Str × List Str) :=
  match split1 ':' (pystrip line) with
  | (key, some value) => some (key, splitOnChar ';' value)
  | (_, none) => none

/-- `_load_data_file` (lines 104-123), applied to the list of lines of the
file; file I/O and the missing-file early return are outside the model (both
yield the dictionary built from zero lines). -/
def load_data_file (lines : List Str) : List (Str × List Str) :=
  lines.foldl
    (fun d line =>
      match parse_data_line line with
      | some kv => dictInsert kv.1 kv.2 d
      | none => d)
    []

/-- The Gregorian-to-Julian-Day arithmetic of `_calculate_julian_day`
(lines 133-144), after a successful parse. -/
def jd_formula (year0 month0 day hour minute : ℤ) : ℚ :=
  let year : ℤ := if month0 ≤ 2 then year0 - 1 else year0
  let month : ℤ := if month0 ≤ 2 then month0 + 12 else month0
  let a : ℤ := Int.fdiv year 100
  let b : ℤ := 2 - a + Int.fdiv a 4
  let jd : ℚ :=
    ((pytrunc ((365.25 : ℚ) * ((year : ℚ) + 4716)) : ℤ) : ℚ)
      + ((pytrunc ((30.6001 : ℚ) * ((month : ℚ) + 1)) : ℤ) : ℚ)
      + (day : ℚ) + (b : ℚ) - 1524.5
  jd + (((hour : ℚ) + (minute : ℚ) / 60) / 24)

/-- `year, month, day = map(int, date_str.split('-'))` (line 129); `none` is
the raised `ValueError`. -/
def parse_date (s : Str) : Option (ℤ × ℤ × ℤ) :=
  match splitOnChar '-' s with
  | [a, b, c] =>
    match pyInt a, pyInt b, pyInt c with
    | some y, some m, some d => some (y, m, d)
    | _, _, _ => none
  | _ => none

/-- `hour, minute = map(int, time_str.split(':'))` (line 131). -/
def parse_time (s : Str) : Option (ℤ × ℤ) :=
  match splitOnChar ':' s with
  | [a, b] =>
    match pyInt a, pyInt b with
    | some h, some m => some (h, m)
    | _, _ => none
  | _ => none

/-- `_calculate_julian_day` (lines 125-147): on any parse failure the
`except` branch returns the J2000.0 Julian Day `2451545.0`. -/
def calculate_julian_day (date_str time_str : Str) : ℚ :=
  match parse_date date_str, parse_time time_str with
  | some (y, m, d), some (h, mi) => jd_formula y m d h mi
  | _, _ => 2451545

/-- The twelve sign names (`self.sign_names`, lines 84-87). -/
def sign_names : List Str :=
  ["ARIES".toList, "TAURUS".toList, "GEMINI".toList, "CANCER".toList,
   "LEO".toList, "VIRGO".toList, "LIBRA".toList, "SCORPIO".toList,
   "SAGITTARIUS".toList, "CAPRICORN".toList, "AQUARIUS".toList, "PISCES".toList]

/-- `sign_index = int(longitude % 360 // 30)` (lines 152-153); the argument of
`int` is non-negative, so truncation is the floor. -/
def sign_index (longitude : ℚ) : ℕ :=
  (⌊pymod longitude 360 / 30⌋).toNat

/-- `_get_sign_from_longitude` (lines 149-154); the list indexing
`self.sign_names[sign_index]` is modelled with `Option`, `none` being a raised
`IndexError`. -/
def get_sign_from_longitude (longitude : ℚ) : Option Str :=
  sign_names[sign_index longitude]?

/-- The per-planet `(base, rate)` table shared by
`_simplified_planetary_positions` (lines 219-228) and
`_simplified_planet_position` (lines 236-247); the two listings in the source
carry identical constants, in this order. -/
def planet_formulas : List (Str × ℚ × ℚ) :=
  [("SUN".toList, 280.461, 0.9856474),
   ("MOON".toList, 218.316, 13.176396),
   ("MERCURY".toList, 252.251, 4.092317),
   ("VENUS".toList, 181.980, 1.602130),
   ("MARS".toList, 355.433, 0.524032),
   ("JUPITER".toList, 34.352, 0.083056),
   ("SATURN".toList, 50.078, 0.033459),
   ("URANUS".toList, 314.055, 0.011731),
   ("NEPTUNE".toList, 304.349, 0.006027),
   ("PLUTO".toList, 238.958, 0.003968)]

/-- `_simplified_planetary_positions` (lines 211-230): for each body,
`(base + rate * (jd - 2451545.0)) % 360`, in dict insertion order. -/
def simplified_planetary_positions (jd : ℚ) : List (Str × ℚ) :=
  planet_formulas.map (fun e => (e.1, pymod (e.2.1 + e.2.2 * (jd - 2451545)) 360))

/-- `_calculate_houses` (lines 255-267): ascendant fixed at 0, cusps
`(0 + i*30) % 360` for `i = 0..11`; the latitude, longitude and Julian-Day
arguments are accepted and ignored exactly as in the source. -/
def calculate_houses (latitude longitude jd : ℚ) : List ℚ :=
  (List.range 12).map (fun i => pymod ((0 : ℚ) + (i : ℚ) * 30) 360)

/-- The `for i in range(12)` loop of `_get_house_for_planet` (lines 272-276)
over an explicit index list: first index whose interval test succeeds wins,
otherwise the default `1`. List indexing uses `getD 0`; every call site passes
the 12-element cusp list, so the default is never consulted. -/
def house_search (planet_longitude : ℚ) (house_cusps : List ℚ) : List ℕ → ℕ
  | [] => 1
  | i :: rest =>
    if house_cusps.getD i 0 ≤ planet_longitude ∧
        planet_longitude < house_cusps.getD ((i + 1) % 12) 0 then
      i + 1
    else house_search planet_longitude house_cusps rest

/-- `_get_house_for_planet` (lines 269-276). -/
def get_house_for_planet (planet_longitude : ℚ) (house_cusps : List ℚ) : ℕ :=
  house_search planet_longitude house_cusps (List.range 12)

/-- The angular-separation computation shared by `_calculate_aspects`
(lines 288-291) and `_calculate_transit_aspects` (lines 514-517):
`abs(lon1 - lon2)`, replaced by `360 - that` when it exceeds 180. -/
def angular_separation (lon1 lon2 : ℚ) : ℚ :=
  let angle := |lon1 - lon2|
  if 180 < angle then 360 - angle else angle

/-- The per-pair rule scan shared by `_calculate_aspects` (lines 293-309) and
`_calculate_transit_aspects` (lines 519-535): re-split the first stored field
on ';', require at least two parts, parse them as floats, and emit an aspect
when the separation is within the orb. A `float()` parse failure (a raised
exception in Python) is modelled as emitting nothing; the guard in front of it
is never passed on loader-produced data, whose first field holds no `';'`. -/
def check_rules (aspects_data : List (Str × List Str)) (name1 name2 : Str)
    (angle : ℚ) : List Aspect :=
  aspects_data.flatMap
    (fun rule =>
      match splitOnChar ';' (rule.2.headD []) with
      | t :: o :: _ =>
        match pyFloat t, pyFloat o with
        | some target_angle, some orb =>
          if |angle - target_angle| ≤ orb then
            [⟨name1, name2, angle, rule.1, |angle - target_angle|, rule.2.drop 2⟩]
          else []
        | _, _ => []
      | _ => [])

/-- The `i < j` double loop of `_calculate_aspects` (lines 283-284) over the
dict's insertion order. -/
def upperPairs {α : Type} : List α → List (α × α)
  | [] => []
  | x :: xs => (xs.map (fun y => (x, y))) ++ upperPairs xs

/-- `_calculate_aspects` (lines 278-311). -/
def calculate_aspects (aspects_data : List (Str × List Str))
    (planets : List Planet) : List Aspect :=
  (upperPairs planets).flatMap
    (fun pr =>
      check_rules aspects_data pr.1.name pr.2.name
        (angular_separation pr.1.longitude pr.2.longitude))

/-- `_calculate_transit_aspects` (lines 503-537): every cross pair except the
same body against itself, names labelled `Transit `/`Natal `. -/
def calculate_transit_aspects (aspects_data : List (Str × List Str))
    (birth_planets current_planets : List Planet) : List Aspect :=
  current_planets.flatMap
    (fun tp =>
      birth_planets.flatMap
        (fun bp =>
          if tp.name = bp.name then []
          else
            check_rules aspects_data ("Transit ".toList ++ tp.name)
              ("Natal ".toList ++ bp.name)
              (angular_separation tp.longitude bp.longitude)))

/-- `calculate_chart` (lines 313-350) on the analytic-fallback strategy
(`self.ephemeris is None`, so `_calculate_planetary_positions` returns
`_simplified_planetary_positions(jd)`). The location string only feeds the
display and is ignored by every computation, as in the source; the sign
indexing is defaulted with `[]` on the `none` branch, which the sign-index
bound below shows unreachable. -/
def calculate_chart (planets_data aspects_data : List (Str × List Str))
    (date_str time_str location : Str) : List Planet × List Aspect :=
  let jd := calculate_julian_day date_str time_str
  let house_cusps := calculate_houses 40 (-74) jd
  let planets : List Planet :=
    (simplified_planetary_positions jd).map
      (fun e =>
        ⟨e.1, e.2, (get_sign_from_longitude e.2).getD [],
         get_house_for_planet e.2 house_cusps,
         dictGetD planets_data e.1 []⟩)
  (planets, calculate_aspects aspects_data planets)

theorem pymod_nonneg (x m : ℚ) (hm : 0 < m) : 0 ≤ pymod x m := by
  have h1 : ((⌊x / m⌋ : ℤ) : ℚ) ≤ x / m := Int.floor_le _
  have h2 : m * ((⌊x / m⌋ : ℤ) : ℚ) ≤ m * (x / m) :=
    mul_le_mul_of_nonneg_left h1 (le_of_lt hm)
  have h3 : m * (x / m) = x := by field_simp
  simp only [pymod]
  linarith

theorem pymod_lt (x m : ℚ) (hm : 0 < m) : pymod x m < m := by
  have h1 : x / m < ((⌊x / m⌋ : ℤ) : ℚ) + 1 := Int.lt_floor_add_one _
  have h2 : m * (x / m) < m * (((⌊x / m⌋ : ℤ) : ℚ) + 1) :=
    mul_lt_mul_of_pos_left h1 hm
  have h3 : m * (x / m) = x := by field_simp
  simp only [pymod]
  nlinarith

theorem house_search_unfold (L : ℚ) :
  house_search L [0,30,60,90,120,150,180,210,240,270,300,330] [0,1,2,3,4,5,6,7,8,9,10,11]
  = if 0 ≤ L ∧ L < 30 then 1
    else if 30 ≤ L ∧ L < 60 then 2
    else if 60 ≤ L ∧ L < 90 then 3
    else if 90 ≤ L ∧ L < 120 then 4
    else if 120 ≤ L ∧ L < 150 then 5
    else if 150 ≤ L ∧ L < 180 then 6
    else if 180 ≤ L ∧ L < 210 then 7
    else if 210 ≤ L ∧ L < 240 then 8
    else if 240 ≤ L ∧ L < 270 then 9
    else if 270 ≤ L ∧ L < 300 then 10
    else if 300 ≤ L ∧ L < 330 then 11
    else if 330 ≤ L ∧ L < 0 then 12
    else 1 := by
  with_unfolding_all rfl

theorem calculate_houses_eq (la lo jd : ℚ) :
    calculate_houses la lo jd = [0,30,60,90,120,150,180,210,240,270,300,330] := by
  with_unfolding_all rfl

set_option maxHeartbeats 1000000 in
theorem house_search_spec (L : ℚ) (h0 : 0 ≤ L) (h1 : L < 360) :
    house_search L [0,30,60,90,120,150,180,210,240,270,300,330] [0,1,2,3,4,5,6,7,8,9,10,11]
      = if L < 330 then (⌊L / 30⌋).toNat + 1 else 1 := by
  rw [house_search_unfold]
  have hfl : ∀ k : ℤ, (k : ℚ) * 30 ≤ L → L < ((k : ℚ) + 1) * 30 → ⌊L / 30⌋ = k := by
    intro k hk1 hk2
    rw [Int.floor_eq_iff]
    refine ⟨?_, ?_⟩
    · rw [le_div_iff (by norm_num : (0:ℚ) < 30)]
      linarith
    · rw [div_lt_iff (by norm_num : (0:ℚ) < 30)]
      push_cast
      linarith
  rcases lt_or_le L 330 with hL | hL
  · rw [if_pos hL]
    by_cases c0 : 0 ≤ L ∧ L < 30
    · rw [if_pos c0, hfl 0 (by push_cast; linarith [c0.1]) (by push_cast; linarith [c0.2])]
      rfl
    · rw [if_neg c0]
      by_cases c1 : 30 ≤ L ∧ L < 60
      · rw [if_pos c1, hfl 1 (by push_cast; linarith [c1.1]) (by push_cast; linarith [c1.2])]
        rfl
      · rw [if_neg c1]
        by_cases c2 : 60 ≤ L ∧ L < 90
        · rw [if_pos c2, hfl 2 (by push_cast; linarith [c2.1]) (by push_cast; linarith [c2.2])]
          rfl
        · rw [if_neg c2]
          by_cases c3 : 90 ≤ L ∧ L < 120
          · rw [if_pos c3, hfl 3 (by push_cast; linarith [c3.1]) (by push_cast; linarith [c3.2])]
            rfl
          · rw [if_neg c3]
            by_cases c4 : 120 ≤ L ∧ L < 150
            · rw [if_pos c4, hfl 4 (by push_cast; linarith [c4.1]) (by push_cast; linarith [c4.2])]
              rfl
            · rw [if_neg c4]
              by_cases c5 : 150 ≤ L ∧ L < 180
              · rw [if_pos c5, hfl 5 (by push_cast; linarith [c5.1]) (by push_cast; linarith [c5.2])]
                rfl
              · rw [if_neg c5]
                by_cases c6 : 180 ≤ L ∧ L < 210
                · rw [if_pos c6, hfl 6 (by push_cast; linarith [c6.1]) (by push_cast; linarith [c6.2])]
                  rfl
                · rw [if_neg c6]
                  by_cases c7 : 210 ≤ L ∧ L < 240
                  · rw [if_pos c7, hfl 7 (by push_cast; linarith [c7.1]) (by push_cast; linarith [c7.2])]
                    rfl
                  · rw [if_neg c7]
                    by_cases c8 : 240 ≤ L ∧ L < 270
                    · rw [if_pos c8, hfl 8 (by push_cast; linarith [c8.1]) (by push_cast; linarith [c8.2])]
                      rfl
                    · rw [if_neg c8]
                      by_cases c9 : 270 ≤ L ∧ L < 300
                      · rw [if_pos c9, hfl 9 (by push_cast; linarith [c9.1]) (by push_cast; linarith [c9.2])]
                        rfl
                      · rw [if_neg c9]
                        by_cases c10 : 300 ≤ L ∧ L < 330
                        · rw [if_pos c10, hfl 10 (by push_cast; linarith [c10.1]) (by push_cast; linarith [c10.2])]
                          rfl
                        · rw [if_neg c10]
                          exfalso
                          have k1 : (30 : ℚ) ≤ L := by
                            by_contra hq
                            exact c0 ⟨h0, by linarith⟩
                          have k2 : (60 : ℚ) ≤ L := by
                            by_contra hq
                            exact c1 ⟨k1, by linarith⟩
                          have k3 : (90 : ℚ) ≤ L := by
                            by_contra hq
                            exact c2 ⟨k2, by linarith⟩
                          have k4 : (120 : ℚ) ≤ L := by
                            by_contra hq
                            exact c3 ⟨k3, by linarith⟩
                          have k5 : (150 : ℚ) ≤ L := by
                            by_contra hq
                            exact c4 ⟨k4, by linarith⟩
                          have k6 : (180 : ℚ) ≤ L := by
                            by_contra hq
                            exact c5 ⟨k5, by linarith⟩
                          have k7 : (210 : ℚ) ≤ L := by
                            by_contra hq
                            exact c6 ⟨k6, by linarith⟩
                          have k8 : (240 : ℚ) ≤ L := by
                            by_contra hq
                            exact c7 ⟨k7, by linarith⟩
                          have k9 : (270 : ℚ) ≤ L := by
                            by_contra hq
                            exact c8 ⟨k8, by linarith⟩
                          have k10 : (300 : ℚ) ≤ L := by
                            by_contra hq
                            exact c9 ⟨k9, by linarith⟩
                          have k11 : (330 : ℚ) ≤ L := by
                            by_contra hq
                            exact c10 ⟨k10, by linarith⟩
                          linarith
  · rw [if_neg (not_lt.mpr hL)]
    rw [if_neg (by rintro ⟨hx, hy⟩ ; linarith), if_neg (by rintro ⟨hx, hy⟩ ; linarith), if_neg (by rintro ⟨hx, hy⟩ ; linarith), if_neg (by rintro ⟨hx, hy⟩ ; linarith), if_neg (by rintro ⟨hx, hy⟩ ; linarith), if_neg (by rintro ⟨hx, hy⟩ ; linarith), if_neg (by rintro ⟨hx, hy⟩ ; linarith), if_neg (by rintro ⟨hx, hy⟩ ; linarith), if_neg (by rintro ⟨hx, hy⟩ ; linarith), if_neg (by rintro ⟨hx, hy⟩ ; linarith), if_neg (by rintro ⟨hx, hy⟩ ; linarith), if_neg (by rintro ⟨hx, hy⟩ ; linarith)]

/-- Python `s.split(c)` always yields at least one field. -/
theorem splitOnChar_ne_nil (c : Char) (s : Str) : splitOnChar c s ≠ [] := by
  cases s with
  | nil => simp [splitOnChar]
  | cons x xs =>
    simp only [splitOnChar]
    by_cases h : x = c
    · simp [h]
    · simp only [if_neg h]
      cases hs : splitOnChar c xs with
      | nil => simp
      | cons y ys => simp

/-- No field produced by `s.split(c)` contains the separator. -/
theorem not_mem_of_mem_splitOnChar (c : Char) (s t : Str)
    (ht : t ∈ splitOnChar c s) : c ∉ t := by
  induction s generalizing t with
  | nil =>
    simp [splitOnChar] at ht
    simp [ht]
  | cons x xs ih =>
    simp only [splitOnChar] at ht
    by_cases h : x = c
    · rw [if_pos h] at ht
      rcases List.mem_cons.mp ht with h1 | h1
      · simp [h1]
      · exact ih t h1
    · rw [if_neg h] at ht
      cases hs : splitOnChar c xs with
      | nil => exact absurd hs (splitOnChar_ne_nil c xs)
      | cons y ys =>
        rw [hs] at ht
        rcases List.mem_cons.mp ht with h1 | h1
        · subst h1
          intro hmem
          rcases List.mem_cons.mp hmem with h2 | h2
          · exact h h2.symm
          · exact ih y (by rw [hs]; exact List.mem_cons_self y ys) h2
        · exact ih t (by rw [hs]; exact List.mem_cons_of_mem y h1)

/-- Splitting a string that does not contain the separator returns it whole. -/
theorem splitOnChar_eq_of_not_mem (c : Char) (s : Str) (h : c ∉ s) :
    splitOnChar c s = [s] := by
  induction s with
  | nil => rfl
  | cons x xs ih =>
    have hx : ¬ x = c := fun he => h (by rw [he]; exact List.mem_cons_self c xs)
    have hxs : c ∉ xs := fun hm => h (List.mem_cons_of_mem x hm)
    simp [splitOnChar, if_neg hx, ih hxs]

/-- Membership after a dict insertion: the new binding or an old one. -/
theorem mem_dictInsert {α : Type} (k : Str) (v : α) (d : List (Str × α)) (e : Str × α)
    (he : e ∈ dictInsert k v d) : e = (k, v) ∨ e ∈ d := by
  induction d with
  | nil => simpa [dictInsert] using he
  | cons f rest ih =>
    simp only [dictInsert] at he
    by_cases h : f.1 = k
    · rw [if_pos h] at he
      rcases List.mem_cons.mp he with h1 | h1
      · exact Or.inl h1
      · exact Or.inr (List.mem_cons_of_mem f h1)
    · rw [if_neg h] at he
      rcases List.mem_cons.mp he with h1 | h1
      · exact Or.inr (by rw [h1]; exact List.mem_cons_self f rest)
      · rcases ih h1 with h2 | h2
        · exact Or.inl h2
        · exact Or.inr (List.mem_cons_of_mem f h2)

/-- Every value stored by the data-file loader is a `';'`-split list. -/
theorem parse_data_line_shape (line : Str) (kv : Str × List Str)
    (h : parse_data_line line = some kv) : ∃ v, kv.2 = splitOnChar ';' v := by
  unfold parse_data_line at h
  rcases hs : split1 ':' (pystrip line) with ⟨key, ov⟩
  rw [hs] at h
  cases ov with
  | none => simp at h
  | some value =>
    simp only [Option.some.injEq] at h
    exact ⟨value, by rw [← h]⟩

theorem load_data_file_values (lines : List Str) :
    ∀ kv ∈ load_data_file lines, ∃ v, kv.2 = splitOnChar ';' v := by
  have gen : ∀ (ls : List Str) (d : List (Str × List Str)),
      (∀ kv ∈ d, ∃ v, kv.2 = splitOnChar ';' v) →
      ∀ kv ∈ ls.foldl
          (fun d line =>
            match parse_data_line line with
            | some kv => dictInsert kv.1 kv.2 d
            | none => d) d,
        ∃ v, kv.2 = splitOnChar ';' v := by
    intro ls
    induction ls with
    | nil =>
      intro d hd kv hkv
      exact hd kv hkv
    | cons l rest ih =>
      intro d hd kv hkv
      rw [List.foldl_cons] at hkv
      refine ih _ ?_ kv hkv
      intro e he
      cases hp : parse_data_line l with
      | none =>
        simp only [hp] at he
        exact hd e he
      | some kv2 =>
        simp only [hp] at he
        rcases mem_dictInsert _ _ _ _ he with h1 | h1
        · rcases parse_data_line_shape l kv2 hp with ⟨v, hv⟩
          exact ⟨v, by rw [h1]; exact hv⟩
        · exact hd e h1
  intro kv hkv
  unfold load_data_file at hkv
  exact gen lines [] (by simp) kv hkv

/-- On any dictionary built by `_load_data_file`, the inner rule scan of
`_calculate_aspects` re-splits the first stored field on `';'`; that field
contains no `';'`, so the `len(parts) >= 2` guard always fails and no rule is
ever matched. -/
theorem check_rules_empty_on_loaded (lines : List Str) (n1 n2 : Str) (a : ℚ) :
    check_rules (load_data_file lines) n1 n2 a = [] := by
  unfold check_rules
  rw [List.flatMap_eq_nil_iff]
  intro rule hrule
  rcases load_data_file_values lines rule hrule with ⟨v, hv⟩
  rcases he : splitOnChar ';' v with _ | ⟨hd0, tl0⟩
  · exact absurd he (splitOnChar_ne_nil ';' v)
  · have hhead : rule.2.headD [] = hd0 := by rw [hv, he]; rfl
    have hmem : hd0 ∈ splitOnChar ';' v := by rw [he]; exact List.mem_cons_self hd0 tl0
    have hns : (';' : Char) ∉ hd0 := not_mem_of_mem_splitOnChar ';' v hd0 hmem
    rw [hhead, splitOnChar_eq_of_not_mem ';' hd0 hns]

/-- Longitudes produced by the analytic fallback lie in `[0, 360)`. -/
theorem simplified_positions_mem (jd : ℚ) (q : Str × ℚ)
    (hq : q ∈ simplified_planetary_positions jd) : 0 ≤ q.2 ∧ q.2 < 360 := by
  unfold simplified_planetary_positions at hq
  rcases List.mem_map.mp hq with ⟨e, he, rfl⟩
  exact ⟨pymod_nonneg _ _ (by norm_num), pymod_lt _ _ (by norm_num)⟩

/-- The explicit value of `List.range 12`. -/
theorem range12_eq : List.range 12 = [0, 1, 2, 3, 4, 5, 6, 7, 8, 9, 10, 11] := by
  decide

/-- C1, counterexample: at planet longitude 340 — inside `[330, 360)` — the
claim fails on the code: `_get_house_for_planet` returns the default house 1,
not house 12, and no interval test `cusp[i] <= L < cusp[(i+1) mod 12]`
succeeds (the house-12 test is `330 <= L < 0`, which nothing satisfies), so
the default branch is reached. -/
theorem house_default_reached_at_340 :
    get_house_for_planet 340 (calculate_houses 40 (-74) 2451545) = 1 ∧
    ((List.range 12).all (fun i =>
      !(decide ((calculate_houses 40 (-74) 2451545).getD i 0 ≤ (340 : ℚ)) &&
        decide ((340 : ℚ) < (calculate_houses 40 (-74) 2451545).getD ((i + 1) % 12) 0))))
      = true := by
  constructor
  · with_unfolding_all rfl
  · with_unfolding_all rfl

/-- C1, amended: over the equal-house cusps `0, 30, …, 330`,
`_get_house_for_planet` assigns to every longitude `L ∈ [0, 360)` exactly one
house, namely house `⌊L/30⌋ + 1` for `L ∈ [0, 330)` via a successful interval
test, but house 1 — the default branch — for `L ∈ [330, 360)`: the house-12
wraparound test `330 ≤ L < 0` never succeeds, so house 12 is unreachable and
the default-to-house-1 branch is reachable, contrary to the claim. -/
theorem house_assignment_characterized (la lo jd L : ℚ)
    (h0 : 0 ≤ L) (h1 : L < 360) :
    get_house_for_planet L (calculate_houses la lo jd)
      = if L < 330 then (⌊L / 30⌋).toNat + 1 else 1 := by
  unfold get_house_for_planet
  rw [calculate_houses_eq la lo jd, range12_eq]
  exact house_search_spec L h0 h1

/-- Witness for C1's amended theorem at the concrete longitude 100. -/
theorem house_assignment_characterized_witness :
    get_house_for_planet 100 (calculate_houses 40 (-74) 2451545)
      = if (100 : ℚ) < 330 then (⌊(100 : ℚ) / 30⌋).toNat + 1 else 1 :=
  house_assignment_characterized 40 (-74) 2451545 100 (by norm_num) (by norm_num)

/-- C2: contrary to the claim, on every aspect table loaded by
`_load_data_file` from the `key:value;value;...` format, `_calculate_aspects`
records no aspect at all, for any set of placed bodies: the rule values are
already `';'`-split, so `aspect_info[0].split(';')` always has exactly one
part and the `len(parts) >= 2` guard never passes. In particular the claim's
scenario — bodies at longitudes 10 and 70 against a Sextile rule with exact
angle 60 and tolerance 6 — yields the empty aspect list instead of a match
with orb 0. -/
theorem calculate_aspects_always_empty :
    (∀ (lines : List Str) (planets : List Planet),
        calculate_aspects (load_data_file lines) planets = [])
    ∧ calculate_aspects (load_data_file ["SEXTILE:60;6;harmony".toList])
        [⟨"SUN".toList, 10, [], 1, []⟩, ⟨"MOON".toList, 70, [], 1, []⟩] = [] := by
  constructor
  · intro lines planets
    unfold calculate_aspects
    rw [List.flatMap_eq_nil_iff]
    intro pr hpr
    exact check_rules_empty_on_loaded lines pr.1.name pr.2.name
      (angular_separation pr.1.longitude pr.2.longitude)
  · with_unfolding_all rfl

/-- C3: the folded angular separation of two longitudes in `[0, 360)` always
lies in `[0, 180]`; a raw difference of 350 folds to 10, and longitudes 5 and
185 yield a folded separation of exactly 180. -/
theorem separation_range_and_fold :
    (∀ lonA lonB : ℚ, 0 ≤ lonA → lonA < 360 → 0 ≤ lonB → lonB < 360 →
      0 ≤ angular_separation lonA lonB ∧ angular_separation lonA lonB ≤ 180)
    ∧ angular_separation 350 0 = 10 ∧ angular_separation 5 185 = 180 := by
  refine ⟨?_, ?_, ?_⟩
  · intro a b ha0 ha1 hb0 hb1
    unfold angular_separation
    rcases le_or_lt (|a - b|) 180 with h | h
    · rw [if_neg (not_lt.mpr h)]
      exact ⟨abs_nonneg _, h⟩
    · rw [if_pos h]
      have habs : |a - b| < 360 := by
        rw [abs_lt]
        constructor <;> linarith
      constructor <;> linarith
  · norm_num [angular_separation]
  · norm_num [angular_separation]

/-- Witness for C3 at the concrete longitudes 10 and 300. -/
theorem separation_range_and_fold_witness :
    0 ≤ angular_separation 10 300 ∧ angular_separation 10 300 ≤ 180 :=
  separation_range_and_fold.1 10 300 (by norm_num) (by norm_num) (by norm_num)
    (by norm_num)

/-- Parse failure of the date string: wrong `'-'`-field count or a
non-numeric field. -/
theorem parse_date_none_cases (s : Str)
    (h : (splitOnChar '-' s).length ≠ 3 ∨ ∃ f ∈ splitOnChar '-' s, pyInt f = none) :
    parse_date s = none := by
  unfold parse_date
  rcases hs : splitOnChar '-' s with _ | ⟨a, _ | ⟨b, _ | ⟨c, _ | ⟨e, l⟩⟩⟩⟩ <;>
    rw [hs] at h <;> try rfl
  rcases hpa : pyInt a with _ | ya <;> rcases hpb : pyInt b with _ | yb <;>
    rcases hpc : pyInt c with _ | yc <;> simp_all

/-- Parse failure of the time string: wrong `':'`-field count or a
non-numeric field. -/
theorem parse_time_none_cases (s : Str)
    (h : (splitOnChar ':' s).length ≠ 2 ∨ ∃ f ∈ splitOnChar ':' s, pyInt f = none) :
    parse_time s = none := by
  unfold parse_time
  rcases hs : splitOnChar ':' s with _ | ⟨a, _ | ⟨b, _ | ⟨e, l⟩⟩⟩ <;>
    rw [hs] at h <;> try rfl
  rcases hpa : pyInt a with _ | ya <;> rcases hpb : pyInt b with _ | yb <;> simp_all

/-- C4: for every malformed date or time string — wrong number of `'-'` or
`':'`-separated fields, or a field `int()` cannot parse — `_calculate_julian_day`
returns the J2000.0 Julian Day 2451545.0 instead of raising, so chart
computation continues. -/
theorem julian_day_default_on_malformed (d t : Str)
    (h : (splitOnChar '-' d).length ≠ 3 ∨ (∃ f ∈ splitOnChar '-' d, pyInt f = none)
       ∨ (splitOnChar ':' t).length ≠ 2 ∨ (∃ f ∈ splitOnChar ':' t, pyInt f = none)) :
    calculate_julian_day d t = 2451545 := by
  unfold calculate_julian_day
  rcases h with h | h | h | h
  · rw [parse_date_none_cases d (Or.inl h)]
  · rw [parse_date_none_cases d (Or.inr h)]
  · cases hpd : parse_date d with
    | none => rfl
    | some y =>
      rw [parse_time_none_cases t (Or.inl h)]
  · cases hpd : parse_date d with
    | none => rfl
    | some y =>
      rw [parse_time_none_cases t (Or.inr h)]

/-- Witness for C4: a date string with no `'-'` separators at all. -/
theorem julian_day_default_on_malformed_witness :
    calculate_julian_day "1990/05/15".toList "14:30".toList = 2451545 :=
  julian_day_default_on_malformed "1990/05/15".toList "14:30".toList
    (Or.inl (by decide))

/-- C5: every planet produced by `calculate_chart` on the analytic fallback
has longitude in `[0, 360)`; for the Julian Day of date 1990-05-15, time
14:30, the fallback returns exactly the ten fixed bodies Sun through Pluto,
each with longitude in `[0, 360)`. -/
theorem chart_longitudes_in_range :
    (∀ (planets_data aspects_data : List (Str × List Str)) (d t loc : Str),
        ((calculate_chart planets_data aspects_data d t loc).1.map Planet.longitude).all
          (fun q => decide (0 ≤ q) && decide (q < 360)) = true)
    ∧ (simplified_planetary_positions
          (calculate_julian_day "1990-05-15".toList "14:30".toList)).map Prod.fst
        = ["SUN".toList, "MOON".toList, "MERCURY".toList, "VENUS".toList, "MARS".toList,
           "JUPITER".toList, "SATURN".toList, "URANUS".toList, "NEPTUNE".toList,
           "PLUTO".toList]
    ∧ ((simplified_planetary_positions
          (calculate_julian_day "1990-05-15".toList "14:30".toList)).map Prod.snd).all
        (fun q => decide (0 ≤ q) && decide (q < 360)) = true := by
  refine ⟨?_, by with_unfolding_all rfl, ?_⟩
  · intro planets_data aspects_data d t loc
    rw [List.all_eq_true]
    intro q hq
    rcases List.mem_map.mp hq with ⟨p, hp, rfl⟩
    unfold calculate_chart at hp
    rcases List.mem_map.mp hp with ⟨e, he, rfl⟩
    have := simplified_positions_mem _ e he
    rw [Bool.and_eq_true, decide_eq_true_eq, decide_eq_true_eq]
    exact this
  · rw [List.all_eq_true]
    intro q hq
    rcases List.mem_map.mp hq with ⟨e, he, rfl⟩
    have := simplified_positions_mem _ e he
    rw [Bool.and_eq_true, decide_eq_true_eq, decide_eq_true_eq]
    exact this

/-- C6: `_calculate_julian_day(\"2000-01-01\", \"12:00\")` is exactly the
J2000.0 epoch value 2451545.0. -/
theorem julian_day_j2000 :
    calculate_julian_day "2000-01-01".toList "12:00".toList = 2451545 := by
  with_unfolding_all rfl

/-- C7: the analytic fallback is deterministic —
`_simplified_planetary_positions` is a pure function of the Julian Day, and
computing a chart twice from the same date, time, location and rule tables
yields identical placements and aspect lists. -/
theorem analytic_path_deterministic :
    (∀ jd : ℚ, simplified_planetary_positions jd = simplified_planetary_positions jd)
    ∧ ∀ (planets_data aspects_data : List (Str × List Str)) (d t loc : Str),
        calculate_chart planets_data aspects_data d t loc
          = calculate_chart planets_data aspects_data d t loc :=
  ⟨fun _ => rfl, fun _ _ _ _ _ => rfl⟩

/-- C8: the folded separation and the orb against any rule angle are
unchanged when the two bodies are swapped, in both the intra-chart and the
transit-to-natal detectors (both compute them by this shared formula). -/
theorem aspect_separation_symmetric :
    ∀ lonX lonY target : ℚ,
      angular_separation lonX lonY = angular_separation lonY lonX
      ∧ |angular_separation lonX lonY - target|
          = |angular_separation lonY lonX - target| := by
  intro x y t
  have h : |x - y| = |y - x| := abs_sub_comm x y
  constructor
  · unfold angular_separation
    rw [h]
  · unfold angular_separation
    rw [h]

/-- C9: `_calculate_julian_day` performs no calendar-range validation: any
date of exactly three `int()`-parseable fields and time of exactly two such
fields is fed straight to the Julian-Day formula; month 13, day 40 produces
the formula value 2451950.0, not the 2451545.0 default. -/
theorem julian_day_no_range_validation :
    (∀ (d t a b c u v : Str) (y m dd h mi : ℤ),
        splitOnChar '-' d = [a, b, c] → pyInt a = some y → pyInt b = some m →
        pyInt c = some dd → splitOnChar ':' t = [u, v] → pyInt u = some h →
        pyInt v = some mi →
        calculate_julian_day d t = jd_formula y m dd h mi)
    ∧ calculate_julian_day "2000-13-40".toList "12:00".toList = 2451950
    ∧ (2451950 : ℚ) ≠ 2451545 := by
  refine ⟨?_, by with_unfolding_all rfl, by norm_num⟩
  intro d t a b c u v y m dd h mi hd ha hb hc ht hu hv
  unfold calculate_julian_day parse_date parse_time
  rw [hd, ht]
  simp only [ha, hb, hc, hu, hv]

/-- Witness for C9 at the out-of-range date 2000-13-40. -/
theorem julian_day_no_range_validation_witness :
    calculate_julian_day "2000-13-40".toList "12:00".toList
      = jd_formula 2000 13 40 12 0 :=
  julian_day_no_range_validation.1 "2000-13-40".toList "12:00".toList
    "2000".toList "13".toList "40".toList "12".toList "00".toList
    2000 13 40 12 0 (by decide) (by decide) (by decide) (by decide)
    (by decide) (by decide) (by decide)

/-- C10: `_get_sign_from_longitude` is total over all longitudes, negative
and at-or-above 360 included: the normalized index is always in `0..11` and
indexing always returns one of the twelve fixed sign names. -/
theorem sign_assignment_total :
    ∀ longitude : ℚ, sign_index longitude < 12 ∧
      ∃ s, get_sign_from_longitude longitude = some s ∧ s ∈ sign_names := by
  intro x
  have h0 : 0 ≤ pymod x 360 := pymod_nonneg x 360 (by norm_num)
  have h1 : pymod x 360 < 360 := pymod_lt x 360 (by norm_num)
  have hdiv : pymod x 360 / 30 < 12 := by
    rw [div_lt_iff (by norm_num : (0:ℚ) < 30)]
    linarith
  have hfl : ⌊pymod x 360 / 30⌋ < (12 : ℤ) := Int.floor_lt.mpr (by exact_mod_cast hdiv)
  have hidx : sign_index x < 12 := by
    unfold sign_index
    omega
  have hb : sign_index x < sign_names.length := by
    have hlen : sign_names.length = 12 := by rfl
    rw [hlen]
    exact hidx
  refine ⟨hidx, sign_names[sign_index x], ?_, List.getElem_mem hb⟩
  unfold get_sign_from_longitude
  exact List.getElem?_eq_getElem hb
